import Mathlib

/-
Verification of the app-server event distribution relay and its external
collaborators (API setup wiring, geolocation response parsing).

The eventlog core (envelope codec, publisher, subscription relay) is not
present in the repository sources, only its test; those components are
modelled from the specification, with the transport wire format represented
at the level of a JSON syntax tree and the concurrent relay loop represented
as a deterministic transition system over an explicit input trace.
-/

namespace AppServer

/-- Modelled from the spec: a JSON value, the wire representation used by the
envelope codec.  The spec fixes the envelope wire shape as a JSON object; the
model works on the JSON syntax tree rather than on raw bytes. -/
inductive Json where
  | null : Json
  | bool (b : Bool) : Json
  | num (n : Int) : Json
  | str (s : String) : Json
  | arr (elems : List Json) : Json
  | obj (fields : List (String × Json)) : Json

/-- Modelled from the spec: the closed enumeration of event types shared by
publisher and decoder. -/
inductive EventType where
  | Uplink | Join | Ack | TxAck | Error | Status | Location | Integration
deriving DecidableEq

/-- Modelled from the spec: the stable string name of each event type, used
as the envelope type tag. -/
def EventType.name : EventType → String
  | .Uplink => "Uplink"
  | .Join => "Join"
  | .Ack => "Ack"
  | .TxAck => "TxAck"
  | .Error => "Error"
  | .Status => "Status"
  | .Location => "Location"
  | .Integration => "Integration"

/-- Modelled from the spec: recover an event type from its string name;
fails on an unknown name. -/
def EventType.ofName (s : String) : Option EventType :=
  if s = "Uplink" then some .Uplink
  else if s = "Join" then some .Join
  else if s = "Ack" then some .Ack
  else if s = "TxAck" then some .TxAck
  else if s = "Error" then some .Error
  else if s = "Status" then some .Status
  else if s = "Location" then some .Location
  else if s = "Integration" then some .Integration
  else none

theorem EventType.ofName_name (t : EventType) : EventType.ofName t.name = some t := by
  cases t <;> rfl

/-- Modelled from the spec: a protocol message instance, represented by its
JSON-encodable field content (the protocol message catalog is external to the
core, each schema being independently JSON encodable and decodable). -/
structure ProtoMessage where
  fields : List (String × Json)

/-- Modelled from the spec: the protocol-message-to-JSON mapping used by the
codec for the payload. -/
def marshalMessage (m : ProtoMessage) : Json :=
  Json.obj m.fields

/-- Modelled from the spec: parse a payload JSON value back into the protocol
message content; fails unless the payload container is a JSON object. -/
def parseMessage : Json → Option ProtoMessage
  | Json.obj fs => some ⟨fs⟩
  | _ => none

/-- Modelled from the spec: a typed message as handed to the publisher; the
schema tag records which event type the message was constructed for, so that
the codec can fail when a message is not a valid instance of the schema
implied by the requested type. -/
structure TypedMessage where
  schema : EventType
  msg : ProtoMessage

/-- Modelled from the spec: the decoded transport envelope,
pairing the event type tag with the still-unparsed payload. -/
structure EventLog where
  Typ : EventType
  Payload : Json

/-- Modelled from the spec: envelope encoding.  Serializes the message and
wraps it in the envelope object with the type tag as the string name of the
event type; fails with an encoding error exactly when the message is not a
valid instance of the schema implied by the requested type. -/
def encode (t : EventType) (m : TypedMessage) : Except String Json :=
  if m.schema = t then
    Except.ok (Json.obj [("type", Json.str t.name), ("payload", marshalMessage m.msg)])
  else
    Except.error "EncodingError: message does not match the schema implied by the type"

/-- Modelled from the spec: look up a field of a JSON object by name,
ignoring all other fields (unknown fields are tolerated). -/
def jsonField (key : String) : List (String × Json) → Option Json
  | [] => none
  | (k, v) :: rest => if k = key then some v else jsonField key rest

/-- Modelled from the spec: envelope decoding.  Parses only the top-level
envelope structure, recovering the type tag and passing the payload through
unparsed; fails when the outer structure is malformed. -/
def decode : Json → Option EventLog
  | Json.obj fs =>
    match jsonField "type" fs, jsonField "payload" fs with
    | some (Json.str s), some p =>
      match EventType.ofName s with
      | some t => some ⟨t, p⟩
      | none => none
    | _, _ => none
  | _ => none

/-- C1: for every supported event type and every validly constructed message
of the schema implied by that type, decoding the envelope produced by encode
yields an EventLog whose Type equals the requested type, and re-parsing its
Payload into the protocol schema yields the message field for field. -/
theorem eventlog_roundtrip (t : EventType) (m : TypedMessage) (h : m.schema = t) :
    ∃ env : Json, encode t m = Except.ok env ∧
      ∃ el : EventLog, decode env = some el ∧ el.Typ = t ∧
        parseMessage el.Payload = some m.msg := by
  refine ⟨Json.obj [("type", Json.str t.name), ("payload", marshalMessage m.msg)], ?_, ?_⟩
  · simp [encode, h]
  · refine ⟨⟨t, marshalMessage m.msg⟩, ?_, rfl, rfl⟩
    simp [decode, jsonField, EventType.ofName_name]

/-- C1 witness: the round trip at the concrete uplink message of the test. -/
theorem eventlog_roundtrip_witness :
    (TypedMessage.mk EventType.Uplink ⟨[("data", Json.str "AQIDAw==")]⟩).schema = EventType.Uplink ∧
    ∃ env : Json,
      encode EventType.Uplink ⟨EventType.Uplink, ⟨[("data", Json.str "AQIDAw==")]⟩⟩ = Except.ok env ∧
      ∃ el : EventLog, decode env = some el ∧ el.Typ = EventType.Uplink ∧
        parseMessage el.Payload = some (⟨[("data", Json.str "AQIDAw==")]⟩ : ProtoMessage) :=
  ⟨rfl, eventlog_roundtrip EventType.Uplink ⟨EventType.Uplink, ⟨[("data", Json.str "AQIDAw==")]⟩⟩ rfl⟩

/-- Modelled from the spec: the base64 alphabet used by the
protocol-buffer-to-JSON mapping for byte fields. -/
def b64Alphabet : List Char :=
  "ABCDEFGHIJKLMNOPQRSTUVWXYZabcdefghijklmnopqrstuvwxyz0123456789+/".toList

/-- Modelled from the spec: the base64 character of a 6-bit value. -/
def b64Char (n : Nat) : Char :=
  b64Alphabet.getD n '='

/-- Modelled from the spec: base64 encoding of a byte sequence, grouped in
blocks of three bytes with trailing padding. -/
def b64Chars : List Nat → List Char
  | [] => []
  | [a] => [b64Char (a / 4), b64Char (a % 4 * 16), '=', '=']
  | [a, b] => [b64Char (a / 4), b64Char (a % 4 * 16 + b / 16), b64Char (b % 16 * 4), '=']
  | a :: b :: c :: rest =>
    b64Char (a / 4) :: b64Char (a % 4 * 16 + b / 16) ::
      b64Char (b % 16 * 4 + c / 64) :: b64Char (c % 64) :: b64Chars rest

/-- Modelled from the spec: base64 encoding to a string. -/
def base64Encode (bs : List Nat) : String :=
  String.mk (b64Chars bs)

/-- Modelled from the spec: the 6-bit value of a base64 character. -/
def b64Val (c : Char) : Option Nat :=
  match b64Alphabet.indexOf? c with
  | some i => some i
  | none => none

/-- Modelled from the spec: base64 decoding of a character block sequence. -/
def b64Bytes : List Char → Option (List Nat)
  | [] => some []
  | [a, b, '=', '='] => do
    let va ← b64Val a
    let vb ← b64Val b
    pure [va * 4 + vb / 16]
  | [a, b, c, '='] => do
    let va ← b64Val a
    let vb ← b64Val b
    let vc ← b64Val c
    pure [va * 4 + vb / 16, vb % 16 * 16 + vc / 4]
  | a :: b :: c :: d :: rest => do
    let va ← b64Val a
    let vb ← b64Val b
    let vc ← b64Val c
    let vd ← b64Val d
    let tail ← b64Bytes rest
    pure ((va * 4 + vb / 16) :: (vb % 16 * 16 + vc / 4) :: (vc % 4 * 64 + vd) :: tail)
  | _ => none

/-- Modelled from the spec: base64 decoding of a string. -/
def base64Decode (s : String) : Option (List Nat) :=
  b64Bytes s.toList

/-- Modelled from the spec: the uplink protocol schema, carrying the raw
uplink data bytes (the only field the test exercises). -/
structure UplinkEvent where
  Data : List Nat
deriving DecidableEq

/-- Modelled from the spec: the protocol-message content of an uplink event;
its byte field is base64 encoded by the protobuf-to-JSON mapping. -/
def uplinkMessage (u : UplinkEvent) : ProtoMessage :=
  ⟨[("data", Json.str (base64Encode u.Data))]⟩

/-- Modelled from the spec: parse a payload JSON value into the uplink
schema, decoding the base64 byte field. -/
def parseUplink (p : Json) : Option UplinkEvent := do
  let m ← parseMessage p
  match jsonField "data" m.fields with
  | some (Json.str s) => do
    let bs ← base64Decode s
    pure ⟨bs⟩
  | _ => none

/-- Modelled from the spec: a broker topic, as a character list. -/
abbrev Topic := List Char

/-- Modelled from the spec: a subscriber identity at the broker. -/
abbrev SubId := Nat

/-- Modelled from the spec: the hexadecimal digit characters. -/
def hexDigitChar (n : Nat) : Char :=
  "0123456789abcdef".toList.getD n 'x'

/-- Modelled from the spec: the hexadecimal rendering of a device
identifier, two characters per byte. -/
def euiHex : List Nat → List Char
  | [] => []
  | b :: bs => hexDigitChar (b / 16) :: hexDigitChar (b % 16) :: euiHex bs

/-- Modelled from the spec: the deterministic topic key of a device, the
hexadecimal device identifier plus a fixed namespace suffix naming the live
event stream.  Publisher and subscription relay both use this function. -/
def deviceTopic (d : List Nat) : Topic :=
  euiHex d ++ ":events".toList

/-- Modelled from the spec: an action arriving at the broker, in timeline
order. -/
inductive BrokerAction where
  | subscribe (sid : SubId) (topic : Topic)
  | publish (topic : Topic) (msg : Json)

/-- Modelled from the spec: the broker state, holding the currently active
subscriptions and the ordered list of fan-out deliveries made so far. -/
structure BrokerState where
  subs : List (SubId × Topic)
  dlog : List (SubId × Json)

/-- Modelled from the spec: one broker transition.  A publish fans out to
every currently subscribed listener of the topic and to nobody else; no
record of the event survives beyond that fan-out. -/
def brokerStep (st : BrokerState) (a : BrokerAction) : BrokerState :=
  match a with
  | .subscribe sid t => { st with subs := st.subs ++ [(sid, t)] }
  | .publish t m =>
    { st with dlog := st.dlog ++ (st.subs.filter (fun p => decide (p.2 = t))).map (fun p => (p.1, m)) }

/-- Modelled from the spec: the broker state after a timeline of actions,
starting from no subscriptions and no deliveries. -/
def runBroker (acts : List BrokerAction) : BrokerState :=
  acts.foldl brokerStep ⟨[], []⟩

/-- Modelled from the spec: the raw messages delivered to one subscriber, in
order. -/
def deliveriesTo (sid : SubId) (st : BrokerState) : List Json :=
  st.dlog.filterMap (fun p => if p.1 = sid then some p.2 else none)

/-- Modelled from the spec: the broker publish call; it succeeds regardless
of how many subscribers are listening (transport failures are modelled
separately as explicit broker errors). -/
def publishToBroker (st : BrokerState) (t : Topic) (m : Json) :
    Except String Unit × BrokerState :=
  (Except.ok (), brokerStep st (.publish t m))

/-- Modelled from the spec: the publisher-side error taxonomy. -/
inductive PublishError where
  | encoding (e : String)
  | broker (e : String)

/-- Modelled from the spec: logEventForDevice.  Encodes the envelope and, on
success, performs exactly one publish of the envelope to the topic of the
device; an encoding failure or a broker failure is returned synchronously,
with no retry, and no publish is attempted after an encoding failure.  The
second component lists the publishes handed to the broker. -/
def logEventForDevice (d : List Nat) (t : EventType) (m : TypedMessage)
    (brokerResult : Except String Unit) :
    Except PublishError Unit × List (Topic × Json) :=
  match encode t m with
  | .error e => (Except.error (.encoding e), [])
  | .ok env =>
    match brokerResult with
    | .error e => (Except.error (.broker e), [(deviceTopic d, env)])
    | .ok _ => (Except.ok (), [(deviceTopic d, env)])

/-- Modelled from the spec: an input observed by the relay loop of an active
subscription: a raw broker message, the cancellation signal firing, or the
broker stream terminating with an error. -/
inductive RelayInput where
  | msg (raw : Json)
  | cancel
  | fail (e : String)

/-- Modelled from the spec: the state of one getEventLogForDevice call after
the broker subscription succeeded.  The outputs are the events forwarded to
the caller-supplied channel, exited records the return value once the call
has returned, and subscribed tracks the broker-side subscription. -/
structure RelayState where
  outputs : List EventLog
  exited : Option (Except String Unit)
  subscribed : Bool

/-- Modelled from the spec: the relay state right after a successful
subscribe, before any message arrives. -/
def relayInit : RelayState :=
  ⟨[], none, true⟩

/-- Modelled from the spec: one step of the relay loop.  A raw message is
decoded and forwarded on success and skipped on a decode failure; the
cancellation signal makes the relay release the subscription and return
without error; a broker stream failure makes it release the subscription and
return that error.  After the call has returned nothing further happens. -/
def relayStep (st : RelayState) (i : RelayInput) : RelayState :=
  if st.exited.isSome then st
  else
    match i with
    | .msg raw =>
      match decode raw with
      | some el => { st with outputs := st.outputs ++ [el] }
      | none => st
    | .cancel => { st with exited := some (Except.ok ()), subscribed := false }
    | .fail e => { st with exited := some (Except.error e), subscribed := false }

/-- Modelled from the spec: the relay state after processing a trace of
inputs. -/
def runRelay (is : List RelayInput) : RelayState :=
  is.foldl relayStep relayInit

theorem relayStep_skip_bad (st : RelayState) (bad : Json) (h : decode bad = none) :
    relayStep st (.msg bad) = st := by
  simp [relayStep, h]

theorem relay_no_step_after_exit (is : List RelayInput) (st : RelayState)
    (h : st.exited.isSome = true) : is.foldl relayStep st = st := by
  induction is with
  | nil => rfl
  | cons i is ih =>
    rw [List.foldl_cons, show relayStep st i = st from by simp [relayStep, h]]
    exact ih

/-- C3: a raw broker message whose decode fails is skipped and processing
continues with the next message; a per-message decode failure never changes
the relay state, so it neither terminates the subscription nor surfaces as
the return value of the relay call. -/
theorem relay_skips_decode_errors (pre post : List RelayInput) (bad : Json)
    (h : decode bad = none) :
    runRelay (pre ++ RelayInput.msg bad :: post) = runRelay (pre ++ post) := by
  unfold runRelay
  rw [List.foldl_append, List.foldl_append, List.foldl_cons, relayStep_skip_bad _ _ h]

/-- C3 witness: a null raw message does not decode and is skipped. -/
theorem relay_skips_decode_errors_witness :
    decode Json.null = none ∧
      runRelay ([] ++ RelayInput.msg Json.null :: []) = runRelay ([] ++ []) :=
  ⟨rfl, relay_skips_decode_errors [] [] Json.null rfl⟩

/-- C4: once the cancellation signal fires on an active subscription, the
relay returns immediately with no error, the broker subscription is
released, and no further event is delivered on the output channel no matter
what inputs follow. -/
theorem relay_cancellation_clean (pre post : List RelayInput)
    (h : (runRelay pre).exited = none) :
    runRelay (pre ++ RelayInput.cancel :: post) =
      { outputs := (runRelay pre).outputs, exited := some (Except.ok ()),
        subscribed := false } := by
  unfold runRelay at h ⊢
  rw [List.foldl_append, List.foldl_cons]
  rw [show relayStep (pre.foldl relayStep relayInit) .cancel =
      { outputs := (pre.foldl relayStep relayInit).outputs,
        exited := some (Except.ok ()), subscribed := false } from by
    simp [relayStep, h]]
  exact relay_no_step_after_exit post _ rfl

/-- C4 witness: cancelling the fresh subscription of the test scenario. -/
theorem relay_cancellation_clean_witness :
    (runRelay []).exited = none ∧
      runRelay ([] ++ RelayInput.cancel :: []) =
        { outputs := (runRelay []).outputs, exited := some (Except.ok ()),
          subscribed := false } :=
  ⟨rfl, relay_cancellation_clean [] [] rfl⟩

theorem relayStep_release_inv (st : RelayState) (i : RelayInput)
    (h : st.exited.isSome = true → st.subscribed = false) :
    (relayStep st i).exited.isSome = true → (relayStep st i).subscribed = false := by
  by_cases he : st.exited.isSome = true
  · simpa [relayStep, he] using h
  · cases i with
    | msg raw =>
      cases hd : decode raw <;> simp [relayStep, he, hd]
    | cancel => simp [relayStep, he]
    | fail e => simp [relayStep, he]

/-- C8: on every exit path of the relay — clean cancellation or broker
stream failure — the broker-side subscription has been released by the time
the call returns. -/
theorem relay_releases_subscription (is : List RelayInput) (r : Except String Unit)
    (h : (runRelay is).exited = some r) :
    (runRelay is).subscribed = false := by
  have key : ∀ (js : List RelayInput) (st : RelayState),
      (st.exited.isSome = true → st.subscribed = false) →
      (js.foldl relayStep st).exited.isSome = true →
      (js.foldl relayStep st).subscribed = false := by
    intro js
    induction js with
    | nil => intro st hst; exact hst
    | cons j js ih =>
      intro st hst
      rw [List.foldl_cons]
      exact ih _ (relayStep_release_inv st j hst)
  exact key is relayInit (by intro hx; cases hx)
    (by unfold runRelay at h; rw [h]; rfl)

/-- C8 witness: a broker stream failure exits with the subscription
released. -/
theorem relay_releases_subscription_witness :
    (runRelay [RelayInput.fail "connection dropped"]).exited =
        some (Except.error "connection dropped") ∧
      (runRelay [RelayInput.fail "connection dropped"]).subscribed = false :=
  ⟨rfl, relay_releases_subscription [RelayInput.fail "connection dropped"]
    (Except.error "connection dropped") rfl⟩

/-- C5: logEventForDevice fails exactly when encoding fails or the broker
publish fails, the failure is the synchronous return value of the call, no
publish is handed to the broker on an encoding failure, and at most one
publish is ever performed (no retries). -/
theorem log_event_error_propagation (d : List Nat) (t : EventType)
    (m : TypedMessage) (br : Except String Unit) :
    ((∃ e, (logEventForDevice d t m br).1 = Except.error e) ↔
        ((∃ e, encode t m = Except.error e) ∨ ∃ e, br = Except.error e)) ∧
      ((∃ e, encode t m = Except.error e) → (logEventForDevice d t m br).2 = []) ∧
      (logEventForDevice d t m br).2.length ≤ 1 := by
  cases henc : encode t m with
  | error e => cases br <;> simp [logEventForDevice, henc]
  | ok env => cases br <;> simp [logEventForDevice, henc]

/-- C5 witness: with a healthy broker and a well-typed message the publish
succeeds with exactly one broker publish. -/
theorem log_event_error_propagation_witness :
    ((∃ e, (logEventForDevice [1, 2, 3, 4, 5, 6, 7, 8] EventType.Uplink
          ⟨EventType.Uplink, ⟨[]⟩⟩ (Except.ok ())).1 = Except.error e) ↔
        ((∃ e, encode EventType.Uplink (⟨EventType.Uplink, ⟨[]⟩⟩ : TypedMessage) =
            Except.error e) ∨ ∃ e, (Except.ok () : Except String Unit) = Except.error e)) ∧
      ((∃ e, encode EventType.Uplink (⟨EventType.Uplink, ⟨[]⟩⟩ : TypedMessage) =
          Except.error e) →
        (logEventForDevice [1, 2, 3, 4, 5, 6, 7, 8] EventType.Uplink
          ⟨EventType.Uplink, ⟨[]⟩⟩ (Except.ok ())).2 = []) ∧
      (logEventForDevice [1, 2, 3, 4, 5, 6, 7, 8] EventType.Uplink
        ⟨EventType.Uplink, ⟨[]⟩⟩ (Except.ok ())).2.length ≤ 1 :=
  log_event_error_propagation [1, 2, 3, 4, 5, 6, 7, 8] EventType.Uplink
    ⟨EventType.Uplink, ⟨[]⟩⟩ (Except.ok ())

/-- Modelled from the spec: the device identifier of the test scenario,
bytes 01 02 03 04 05 06 07 08. -/
def testEUI : List Nat := [1, 2, 3, 4, 5, 6, 7, 8]

/-- Modelled from the spec: the uplink event of the test scenario, with data
bytes 01 02 03 03. -/
def testUplink : UplinkEvent := ⟨[1, 2, 3, 3]⟩

/-- Modelled from the spec: the typed protocol message built from the test
uplink event. -/
def testMessage : TypedMessage := ⟨.Uplink, uplinkMessage testUplink⟩

/-- Modelled from the spec: the broker timeline of the test scenario — one
subscriber on the topic of the test device, then the publishes performed by
logEventForDevice for the test uplink. -/
def scenarioActions : List BrokerAction :=
  BrokerAction.subscribe 0 (deviceTopic testEUI) ::
    (logEventForDevice testEUI .Uplink testMessage (Except.ok ())).2.map
      (fun p => BrokerAction.publish p.1 p.2)

/-- Modelled from the spec: the events forwarded to the subscriber channel
in the test scenario — the raw messages the broker delivered to the
subscriber, processed by the relay loop. -/
def scenarioOutputs : List EventLog :=
  (runRelay ((deliveriesTo 0 (runBroker scenarioActions)).map RelayInput.msg)).outputs

/-- C2: in the concrete test scenario the subscriber channel yields exactly
one EventLog, its type is Uplink, and its payload parsed back into the
uplink schema has data bytes 01 02 03 03. -/
theorem scenario_uplink_delivery :
    ∃ el : EventLog, scenarioOutputs = [el] ∧ el.Typ = EventType.Uplink ∧
      parseUplink el.Payload = some testUplink := by
  refine ⟨⟨EventType.Uplink, Json.obj [("data", Json.str "AQIDAw==")]⟩, ?_, rfl, ?_⟩ <;> rfl

theorem hexDigitChar_inj_fin :
    ∀ a b : Fin 16, hexDigitChar a.val = hexDigitChar b.val → a = b := by
  decide

theorem hexDigitChar_inj {a b : Nat} (ha : a < 16) (hb : b < 16)
    (h : hexDigitChar a = hexDigitChar b) : a = b := by
  have := hexDigitChar_inj_fin ⟨a, ha⟩ ⟨b, hb⟩ h
  exact congrArg Fin.val this

theorem euiHex_inj : ∀ (d1 d2 : List Nat), (∀ b ∈ d1, b < 256) →
    (∀ b ∈ d2, b < 256) → euiHex d1 = euiHex d2 → d1 = d2 := by
  intro d1
  induction d1 with
  | nil =>
    intro d2 _ _ h
    cases d2 with
    | nil => rfl
    | cons b bs => simp [euiHex] at h
  | cons a as ih =>
    intro d2 h1 h2 h
    cases d2 with
    | nil => simp [euiHex] at h
    | cons b bs =>
      simp only [euiHex, List.cons.injEq] at h
      have ha : a < 256 := h1 a (by simp)
      have hb : b < 256 := h2 b (by simp)
      have hd : a / 16 = b / 16 :=
        hexDigitChar_inj (Nat.div_lt_of_lt_mul ha) (Nat.div_lt_of_lt_mul hb) h.1
      have hm : a % 16 = b % 16 :=
        hexDigitChar_inj (Nat.mod_lt a (by norm_num)) (Nat.mod_lt b (by norm_num)) h.2.1
      have hab : a = b := by
        have := Nat.div_add_mod a 16
        have := Nat.div_add_mod b 16
        omega
      have htail : as = bs :=
        ih bs (fun x hx => h1 x (by simp [hx])) (fun x hx => h2 x (by simp [hx])) h.2.2
      rw [hab, htail]

theorem deviceTopic_inj {d1 d2 : List Nat} (h1 : ∀ b ∈ d1, b < 256)
    (h2 : ∀ b ∈ d2, b < 256) (h : deviceTopic d1 = deviceTopic d2) : d1 = d2 := by
  unfold deviceTopic at h
  exact euiHex_inj d1 d2 h1 h2 (List.append_cancel_right h)

/-- C6: the topic key is a deterministic function of the device identifier,
used identically by the publisher and the subscription relay, distinct
devices derive distinct topics, and a publish to the topic of a second
device adds no delivery for a subscriber whose subscriptions are all on the
topic of the first device. -/
theorem topic_isolation (sid : SubId) (d1 d2 : List Nat)
    (h1 : ∀ b ∈ d1, b < 256) (h2 : ∀ b ∈ d2, b < 256) (hne : d1 ≠ d2) :
    deviceTopic d1 ≠ deviceTopic d2 ∧
      (∀ m br, (logEventForDevice d1 .Uplink ⟨.Uplink, m⟩ br).2.map Prod.fst =
        [deviceTopic d1]) ∧
      ∀ (st : BrokerState) (m : Json),
        (∀ p ∈ st.subs, p.1 = sid → p.2 = deviceTopic d1) →
        deliveriesTo sid (brokerStep st (.publish (deviceTopic d2) m)) =
          deliveriesTo sid st := by
  have hT : deviceTopic d1 ≠ deviceTopic d2 := fun hEq => hne (deviceTopic_inj h1 h2 hEq)
  refine ⟨hT, ?_, ?_⟩
  · intro m br
    cases br <;> simp [logEventForDevice, encode]
  · intro st m hsubs
    unfold brokerStep deliveriesTo
    simp only [List.filterMap_append]
    have hnil : ((st.subs.filter (fun p => decide (p.2 = deviceTopic d2))).map
        (fun p => (p.1, m))).filterMap
          (fun p => if p.1 = sid then some p.2 else none) = [] := by
      rw [List.filterMap_eq_nil_iff]
      intro a ha
      simp only [List.mem_map, List.mem_filter] at ha
      obtain ⟨p, ⟨hpmem, hpt⟩, rfl⟩ := ha
      have hpt2 : p.2 = deviceTopic d2 := by simpa using hpt
      by_cases hps : p.1 = sid
      · exact absurd (hpt2 ▸ hsubs p hpmem hps) hT.symm
      · simp [hps]
    rw [hnil, List.append_nil]

/-- C6 witness: two concrete distinct device identifiers derive distinct
topics and a cross-device publish delivers nothing. -/
theorem topic_isolation_witness :
    (∀ b ∈ [1, 2, 3, 4, 5, 6, 7, 8], b < 256) ∧
      (∀ b ∈ [1, 2, 3, 4, 5, 6, 7, 9], b < 256) ∧
      [1, 2, 3, 4, 5, 6, 7, 8] ≠ [1, 2, 3, 4, 5, 6, 7, 9] ∧
      (deviceTopic [1, 2, 3, 4, 5, 6, 7, 8] ≠ deviceTopic [1, 2, 3, 4, 5, 6, 7, 9] ∧
        (∀ m br, (logEventForDevice [1, 2, 3, 4, 5, 6, 7, 8] .Uplink ⟨.Uplink, m⟩ br).2.map
          Prod.fst = [deviceTopic [1, 2, 3, 4, 5, 6, 7, 8]]) ∧
        ∀ (st : BrokerState) (m : Json),
          (∀ p ∈ st.subs, p.1 = 0 → p.2 = deviceTopic [1, 2, 3, 4, 5, 6, 7, 8]) →
          deliveriesTo 0 (brokerStep st (.publish (deviceTopic [1, 2, 3, 4, 5, 6, 7, 9]) m)) =
            deliveriesTo 0 st) :=
  ⟨by decide, by decide, by decide,
    topic_isolation 0 [1, 2, 3, 4, 5, 6, 7, 8] [1, 2, 3, 4, 5, 6, 7, 9]
      (by decide) (by decide) (by decide)⟩

theorem broker_deliveries_frozen (acts : List BrokerAction) (sid : SubId) :
    ∀ (st : BrokerState), (∀ t, BrokerAction.subscribe sid t ∉ acts) →
      (∀ p ∈ st.subs, p.1 ≠ sid) →
      deliveriesTo sid (acts.foldl brokerStep st) = deliveriesTo sid st := by
  induction acts with
  | nil => intro st _ _; rfl
  | cons a acts ih =>
    intro st hsub hfree
    rw [List.foldl_cons]
    cases a with
    | subscribe s t =>
      have hs : s ≠ sid := by
        intro hEq
        exact hsub t (by rw [hEq]; exact List.mem_cons_self _ _)
      have hstep : deliveriesTo sid (brokerStep st (.subscribe s t)) =
          deliveriesTo sid st := rfl
      rw [ih _ (fun t' ht' => hsub t' (List.mem_cons_of_mem _ ht')) ?_, hstep]
      intro p hp
      simp only [brokerStep, List.mem_append, List.mem_singleton] at hp
      cases hp with
      | inl h => exact hfree p h
      | inr h => rw [h]; exact hs
    | publish t m =>
      rw [ih _ (fun t' ht' => hsub t' (List.mem_cons_of_mem _ ht'))
        (by intro p hp; exact hfree p hp)]
      unfold brokerStep deliveriesTo
      simp only [List.filterMap_append]
      have hnil : ((st.subs.filter (fun p => decide (p.2 = t))).map
          (fun p => (p.1, m))).filterMap
            (fun p => if p.1 = sid then some p.2 else none) = [] := by
        rw [List.filterMap_eq_nil_iff]
        intro a ha
        simp only [List.mem_map, List.mem_filter] at ha
        obtain ⟨p, ⟨hpmem, _⟩, rfl⟩ := ha
        simp [hfree p hpmem]
      rw [hnil, List.append_nil]

theorem broker_dlog_frozen (acts : List BrokerAction) :
    ∀ (st : BrokerState), (∀ t m, BrokerAction.publish t m ∉ acts) →
      (acts.foldl brokerStep st).dlog = st.dlog := by
  induction acts with
  | nil => intro st _; rfl
  | cons a acts ih =>
    intro st hpub
    rw [List.foldl_cons]
    cases a with
    | subscribe s t =>
      rw [ih _ (fun t' m' hm' => hpub t' m' (List.mem_cons_of_mem _ hm'))]
      rfl
    | publish t m => exact absurd (List.mem_cons_self _ _) (fun h => hpub t m h)

/-- C7: a subscriber that only subscribes after every publish has happened
receives nothing — events published before any subscription to the device
exists are never replayed to a subscription that starts afterward — and a
publish with zero active subscriptions still returns success and leaves the
broker state unchanged. -/
theorem broker_no_replay (pre post : List BrokerAction) (sid : SubId)
    (hsub : ∀ t, BrokerAction.subscribe sid t ∉ pre)
    (hpub : ∀ t m, BrokerAction.publish t m ∉ post) :
    deliveriesTo sid (runBroker (pre ++ post)) = [] ∧
      ∀ (st : BrokerState) (t : Topic) (m : Json), st.subs = [] →
        publishToBroker st t m = (Except.ok (), st) := by
  constructor
  · unfold runBroker
    rw [List.foldl_append]
    have hpre : deliveriesTo sid (pre.foldl brokerStep ⟨[], []⟩) = deliveriesTo sid ⟨[], []⟩ :=
      broker_deliveries_frozen pre sid ⟨[], []⟩ hsub (by intro p hp; cases hp)
    have hpost : (post.foldl brokerStep (pre.foldl brokerStep ⟨[], []⟩)).dlog =
        (pre.foldl brokerStep ⟨[], []⟩).dlog :=
      broker_dlog_frozen post _ hpub
    unfold deliveriesTo at hpre ⊢
    rw [hpost]
    exact hpre
  · intro st t m hempty
    obtain ⟨subs, dlog⟩ := st
    obtain rfl : subs = [] := hempty
    simp [publishToBroker, brokerStep]

/-- C7 witness: a publish before the subscription exists is not replayed to
the later subscriber, and a publish with no subscribers succeeds. -/
theorem broker_no_replay_witness :
    (∀ t, BrokerAction.subscribe 0 t ∉
        [BrokerAction.publish (deviceTopic testEUI) Json.null]) ∧
      (∀ t m, BrokerAction.publish t m ∉
        [BrokerAction.subscribe 0 (deviceTopic testEUI)]) ∧
      (deliveriesTo 0 (runBroker ([BrokerAction.publish (deviceTopic testEUI) Json.null] ++
          [BrokerAction.subscribe 0 (deviceTopic testEUI)])) = [] ∧
        ∀ (st : BrokerState) (t : Topic) (m : Json), st.subs = [] →
          publishToBroker st t m = (Except.ok (), st)) :=
  ⟨by intro t h; simp at h, by intro t m h; simp at h,
    broker_no_replay [BrokerAction.publish (deviceTopic testEUI) Json.null]
      [BrokerAction.subscribe 0 (deviceTopic testEUI)] 0
      (by intro t h; simp at h) (by intro t m h; simp at h)⟩

/-- Embedding of errors.Wrap from the pkg errors library as used by the
sources: the wrapping message is prepended to the wrapped error message. -/
def errorsWrap (e msg : String) : String :=
  msg ++ ": " ++ e

/-- Embedding of Setup from internal/api/api.go.  The results of the three
sub-API setup calls are passed in as either an error message or success; the
second component records which sub-APIs were invoked, in call order. -/
def apiSetup (asResult externalResult jsResult : Option String) :
    Except String Unit × List String :=
  match asResult with
  | some e => (Except.error (errorsWrap e "setup application-server api error"), ["as"])
  | none =>
    match externalResult with
    | some e => (Except.error (errorsWrap e "setup external api error"), ["as", "external"])
    | none =>
      match jsResult with
      | some e =>
        (Except.error (errorsWrap e "setup join-server api error"), ["as", "external", "js"])
      | none => (Except.ok (), ["as", "external", "js"])

/-- C9: api Setup invokes the as, external and js setups in exactly that
order, returns nil iff all three succeed, and on the first failure returns
that error wrapped with a component-identifying message without invoking
the remaining setups. -/
theorem api_setup_sequence (a e j : Option String) :
    ((apiSetup a e j).1 = Except.ok () ↔ a = none ∧ e = none ∧ j = none) ∧
      (∀ ea, a = some ea → apiSetup a e j =
        (Except.error (errorsWrap ea "setup application-server api error"), ["as"])) ∧
      (∀ ee, a = none → e = some ee → apiSetup a e j =
        (Except.error (errorsWrap ee "setup external api error"), ["as", "external"])) ∧
      (∀ ej, a = none → e = none → j = some ej → apiSetup a e j =
        (Except.error (errorsWrap ej "setup join-server api error"),
          ["as", "external", "js"])) ∧
      (a = none → e = none → j = none → apiSetup a e j =
        (Except.ok (), ["as", "external", "js"])) := by
  cases a <;> cases e <;> cases j <;> simp [apiSetup]

/-- C9 witness: a failing external setup is wrapped and stops the sequence
before the join-server setup. -/
theorem api_setup_sequence_witness :
    apiSetup none (some "boom") none =
      (Except.error (errorsWrap "boom" "setup external api error"), ["as", "external"]) :=
  (api_setup_sequence none (some "boom") none).2.2.1 "boom" rfl rfl

/-- Embedding of the common.Location value built by the geolocation client;
the numeric fields are copied verbatim by the code and are modelled as
rationals, the location source as a numeric code. -/
structure Location where
  Latitude : Rat
  Longitude : Rat
  Altitude : Rat
  Accuracy : Nat
  Source : Nat
deriving DecidableEq

/-- Embedding of the zero common.Location value returned on every error
path. -/
def zeroLocation : Location :=
  ⟨0, 0, 0, 0, 0⟩

/-- Embedding of the V3Response result body: the LLH coordinate list and the
accuracy. -/
structure V3Result where
  LLH : List Rat
  Accuracy : Rat

/-- Embedding of the V3Response of the geolocation service: a list of error
strings and an optional result. -/
structure V3Response where
  Errors : List String
  Result : Option V3Result

/-- Embedding of the Go float64 to uint32 conversion applied to the accuracy
field: truncation for nonnegative values, reduced to the uint32 range, and
zero for negative values (the conversion is out of range there and the Go
specification leaves it implementation defined). -/
def ratToUint32 (q : Rat) : Nat :=
  (⌊q⌋).toNat % 2 ^ 32

/-- Embedding of Client.parseV3Response from the geolocation client: error
strings from the service, a missing result, or an LLH list without exactly
three items yield the zero location and an error; otherwise the location is
assembled from the LLH items, the converted accuracy and the given
source. -/
def parseV3Response (resp : V3Response) (source : Nat) : Location × Option String :=
  if resp.Errors.length ≠ 0 then
    (zeroLocation, some ("api returned error(s): " ++ String.intercalate ", " resp.Errors))
  else
    match resp.Result with
    | none => (zeroLocation, some "no location returned")
    | some r =>
      if r.LLH.length ≠ 3 then
        (zeroLocation, some ("LLH must contain 3 items, received: " ++ toString r.LLH.length))
      else
        ({ Source := source, Latitude := r.LLH.getD 0 0, Longitude := r.LLH.getD 1 0,
           Altitude := r.LLH.getD 2 0, Accuracy := ratToUint32 r.Accuracy }, none)

/-- C10: parseV3Response returns the zero location with an error exactly on
a non-empty error list, a missing result, or an LLH list without exactly
three items; otherwise it returns, with no error, the location whose
latitude, longitude and altitude are the three LLH items, whose accuracy is
the converted accuracy, and whose source is the given source. -/
theorem parseV3Response_spec (resp : V3Response) (source : Nat) :
    ((resp.Errors ≠ [] ∨ resp.Result = none ∨
        ∃ r, resp.Result = some r ∧ r.LLH.length ≠ 3) →
      ∃ e, parseV3Response resp source = (zeroLocation, some e)) ∧
      (∀ r, resp.Errors = [] → resp.Result = some r → r.LLH.length = 3 →
        parseV3Response resp source =
          ({ Latitude := r.LLH.getD 0 0, Longitude := r.LLH.getD 1 0,
             Altitude := r.LLH.getD 2 0, Accuracy := ratToUint32 r.Accuracy,
             Source := source }, none)) := by
  constructor
  · intro h
    by_cases herr : resp.Errors = []
    · cases hres : resp.Result with
      | none => simp [parseV3Response, herr, hres]
      | some r =>
        rcases h with h | h | ⟨r2, hr2, hlen⟩
        · exact absurd herr h
        · rw [hres] at h; cases h
        · rw [hres] at hr2
          obtain rfl : r = r2 := by injection hr2
          refine ⟨"LLH must contain 3 items, received: " ++ toString r.LLH.length, ?_⟩
          simp [parseV3Response, herr, hres, hlen]
    · refine ⟨"api returned error(s): " ++ String.intercalate ", " resp.Errors, ?_⟩
      simp [parseV3Response, herr]
  · intro r herr hres hlen
    simp [parseV3Response, herr, hres, hlen]

/-- C10 witness: a well-formed response with three LLH items parses into the
location built from them. -/
theorem parseV3Response_spec_witness :
    ((⟨[], some ⟨[47, 8, 550], 5⟩⟩ : V3Response).Errors = [] ∧
        (⟨[], some ⟨[47, 8, 550], 5⟩⟩ : V3Response).Result = some ⟨[47, 8, 550], 5⟩ ∧
        ([47, 8, 550] : List Rat).length = 3) ∧
      parseV3Response ⟨[], some ⟨[47, 8, 550], 5⟩⟩ 3 =
        ({ Latitude := 47, Longitude := 8, Altitude := 550, Accuracy := 5,
           Source := 3 }, none) := by
  refine ⟨⟨rfl, rfl, rfl⟩, ?_⟩
  have := (parseV3Response_spec ⟨[], some ⟨[47, 8, 550], 5⟩⟩ 3).2 ⟨[47, 8, 550], 5⟩ rfl rfl rfl
  rw [this]
  simp only [List.getD, ratToUint32]
  norm_num
  decide

end AppServer
